import Mathlib

/-!
Shallow embedding of the fire/agent simulation core of the forestGuardianRL
repository, covering `src/forest_fire_env.py` (class `ForestFireEnv`: the
Rothermel-style spread model, `reset`, `step`) and `src/numba_env.py`
(`physics_step` and class `ForestGuardianEnv`).

Modelling conventions:
- Grids are total functions `ℤ → ℤ → ℕ` (cell codes: 0 = empty, 1 = tree,
  2 = fire) resp. `ℤ → ℤ → ℝ` for the float channels of the numba variant;
  the environments only ever read and write in-bounds cells.
- Python floats are modelled as real numbers `ℝ`.
- The episode-scoped seeded generator `self.np_random` is modelled by explicit
  streams of draw values threaded through the functions that consume them;
  the process-global `np.random` generator used by `numba_env.py` is modelled
  by a separate `GlobalRng` value.
- The embedding fixes the default configuration `use_real_weather=False` and
  MongoDB disabled (`mongodb_enabled=False`), under which `step` performs no
  weather fetch and no UAV moisture update.
-/

namespace ForestGuardianRL

open scoped Classical

/-- `np.clip(x, lo, hi)` (for scalars: `min (max x lo) hi`). -/
noncomputable def clip (x lo hi : ℝ) : ℝ := min (max x lo) hi

/-- Terrain grid of `ForestFireEnv` (`self.grid`): 0 = empty, 1 = tree, 2 = fire. -/
abbrev Grid := ℤ → ℤ → ℕ

/-- Pointwise update `g[r, c] = v` of an integer grid. -/
def updateCell (g : Grid) (r c : ℤ) (v : ℕ) : Grid :=
  fun r' c' => if r' = r ∧ c' = c then v else g r' c'

/-- The in-bounds test `0 <= r < grid_size and 0 <= c < grid_size`. -/
def inBounds (N : ℕ) (p : ℤ × ℤ) : Prop :=
  0 ≤ p.1 ∧ p.1 < (N : ℤ) ∧ 0 ≤ p.2 ∧ p.2 < (N : ℤ)

instance (N : ℕ) (p : ℤ × ℤ) : Decidable (inBounds N p) := by
  unfold inBounds; infer_instance

/-- `np.sum(grid == v)` over the `grid_size × grid_size` board. -/
def countCells (N : ℕ) (g : Grid) (v : ℕ) : ℕ :=
  (List.range N).foldl
    (fun acc r => (List.range N).foldl
      (fun acc2 c => if g (r : ℤ) (c : ℤ) = v then acc2 + 1 else acc2) acc) 0

/-- Row-major list of all board cells (used for scans that numpy performs
on whole arrays). -/
def cellsList (N : ℕ) : List (ℤ × ℤ) :=
  (List.range N).flatMap fun r => (List.range N).map fun c => ((r : ℤ), (c : ℤ))

/-- Mutable state of a `ForestFireEnv` instance together with its episode
configuration (fields mirror the attributes set in `__init__` and `reset`). -/
structure EnvState where
  grid_size : ℕ
  num_agents : ℕ
  base_fire_spread_prob : ℝ
  wind_speed : ℝ
  wind_direction : ℝ
  elevation : ℤ → ℤ → ℝ
  fuel_moisture : ℤ → ℤ → ℝ
  grid : Grid
  agent_positions : List (ℤ × ℤ)
  steps_count : ℕ

/-- The bearing of the fire movement `(dr, dc)`, in degrees with 0° = North,
computed in the source as `np.degrees(np.arctan2(dc, -dr)) % 360`.  The spread
loop only ever calls this on the four unit offsets, where the `arctan2`
expression evaluates to exactly 0, 90, 180 or 270. -/
def fire_direction (dr dc : ℤ) : ℝ :=
  if dr = -1 ∧ dc = 0 then 0
  else if dr = 0 ∧ dc = 1 then 90
  else if dr = 1 ∧ dc = 0 then 180
  else if dr = 0 ∧ dc = -1 then 270
  else 0

/-- Angular difference between fire direction and wind direction, folded into
`[0, 180]` (`angle_diff = abs(fire_direction - wind_direction); if > 180 then
360 - angle_diff`). -/
noncomputable def angle_diff (fire_dir wind_dir : ℝ) : ℝ :=
  let a := |fire_dir - wind_dir|
  if a > 180 then 360 - a else a

/-- Wind factor of `_calculate_fire_spread_probability` (step 1):
`clip(1 + (wind_speed/10)**1.5 * (1 - angle_diff/180), 0.15, 5.0)`. -/
noncomputable def wind_factor (s : EnvState) (dr dc : ℤ) : ℝ :=
  let fire_dir := fire_direction dr dc
  let ad := angle_diff fire_dir s.wind_direction
  let alignment := 1 - ad / 180
  let wind_multiplier := (s.wind_speed / 10) ^ (1.5 : ℝ)
  clip (1 + wind_multiplier * alignment) 0.15 5

/-- Elevation (slope) factor of `_calculate_fire_spread_probability` (step 2). -/
noncomputable def elevation_factor (s : EnvState) (from_pos to_pos : ℤ × ℤ) : ℝ :=
  let slope := s.elevation to_pos.1 to_pos.2 - s.elevation from_pos.1 from_pos.2
  clip (if slope > 0 then 1 + slope * 8 else 1 + slope * 0.2) 0.1 5

/-- Fuel moisture factor of `_calculate_fire_spread_probability` (step 3):
`clip(exp(-0.10 * (moisture[to] - 5.0)), 0.1, 1.0)`. -/
noncomputable def moisture_factor (s : EnvState) (to_pos : ℤ × ℤ) : ℝ :=
  clip (Real.exp (-(0.10) * (s.fuel_moisture to_pos.1 to_pos.2 - 5))) 0.1 1

/-- `ForestFireEnv._calculate_fire_spread_probability(from_pos, to_pos)`. -/
noncomputable def calculate_fire_spread_probability
    (s : EnvState) (from_pos to_pos : ℤ × ℤ) : ℝ :=
  clip (s.base_fire_spread_prob
        * wind_factor s (to_pos.1 - from_pos.1) (to_pos.2 - from_pos.2)
        * elevation_factor s from_pos to_pos
        * moisture_factor s to_pos) 0 1

/-- The spread probability exactly as the specification's words describe it
(claim C1): `clip(base_prob * wind_factor * slope_factor * moisture_factor,
0, 1)` with `wind_factor = clip(1 + (wind_speed/10)^1.5 * (1 - angle_diff/180),
0.15, 5.0)`, `slope_factor = clip(1 + slope*8.0, 0.1, 5.0)` uphill and
`clip(1 + slope*0.2, 0.1, 5.0)` otherwise, and `moisture_factor =
clip(exp(-0.10*(moisture[to] - 5.0)), 0.1, 1.0)`. -/
noncomputable def specSpreadProbability (base wSpeed wDir : ℝ)
    (elev moist : ℤ → ℤ → ℝ) (from_pos to_pos : ℤ × ℤ) : ℝ :=
  let ad := angle_diff
    (fire_direction (to_pos.1 - from_pos.1) (to_pos.2 - from_pos.2)) wDir
  let wf := clip (1 + (wSpeed / 10) ^ (1.5 : ℝ) * (1 - ad / 180)) 0.15 5
  let slope := elev to_pos.1 to_pos.2 - elev from_pos.1 from_pos.2
  let sf := if slope > 0 then clip (1 + slope * 8) 0.1 5
            else clip (1 + slope * 0.2) 0.1 5
  let mf := clip (Real.exp (-(0.10) * (moist to_pos.1 to_pos.2 - 5))) 0.1 1
  clip (base * wf * sf * mf) 0 1

/-- C1: for every pair of adjacent positions `(from, to)` with the target a
tree cell, the spread probability returned by
`_calculate_fire_spread_probability` equals
`clip(base_prob * wind_factor * slope_factor * moisture_factor, 0, 1)` with the
wind, slope and moisture factors as described in the specification. -/
theorem C1_spread_probability_formula (s : EnvState) (from_pos to_pos : ℤ × ℤ)
    (hadj : (to_pos.1 - from_pos.1).natAbs + (to_pos.2 - from_pos.2).natAbs = 1)
    (htree : s.grid to_pos.1 to_pos.2 = 1) :
    calculate_fire_spread_probability s from_pos to_pos
      = specSpreadProbability s.base_fire_spread_prob s.wind_speed
          s.wind_direction s.elevation s.fuel_moisture from_pos to_pos := by
  unfold calculate_fire_spread_probability specSpreadProbability
    wind_factor elevation_factor moisture_factor
  by_cases h :
      (s.elevation to_pos.1 to_pos.2 - s.elevation from_pos.1 from_pos.2) > 0 <;>
    simp only [h, if_true, if_false, apply_ite (fun x => clip x 0.1 5)]

/-- Concrete environment with every cell a tree, used to instantiate theorems
whose hypotheses ask for a tree target cell. -/
noncomputable def envAllTrees : EnvState :=
  ⟨3, 1, 0, 0, 0, fun _ _ => 0, fun _ _ => 0, fun _ _ => 1, [(0, 0)], 0⟩

/-- Witness for C1 at the concrete adjacent pair `(0,0) → (0,1)`. -/
theorem C1_spread_probability_formula_witness :
    envAllTrees.grid 0 1 = 1
    ∧ calculate_fire_spread_probability envAllTrees (0, 0) (0, 1)
        = specSpreadProbability envAllTrees.base_fire_spread_prob
            envAllTrees.wind_speed envAllTrees.wind_direction
            envAllTrees.elevation envAllTrees.fuel_moisture (0, 0) (0, 1) :=
  ⟨rfl, C1_spread_probability_formula envAllTrees (0, 0) (0, 1) (by decide) rfl⟩

/-! ### Fire spread phase of `ForestFireEnv.step` (source part 2) -/

/-- Row-major `np.argwhere(self.grid == 2)` as a list of positions. -/
def fire_positions (N : ℕ) (g : Grid) : List (ℤ × ℤ) :=
  (List.range N).flatMap fun r =>
    (List.range N).filterMap fun c =>
      if g (r : ℤ) (c : ℤ) = 2 then some ((r : ℤ), (c : ℤ)) else none

/-- The four neighbours probed by the spread loop, in source order
(north, south, west, east). -/
def neighbors4 (p : ℤ × ℤ) : List (ℤ × ℤ) :=
  [(p.1 - 1, p.2), (p.1 + 1, p.2), (p.1, p.2 - 1), (p.1, p.2 + 1)]

/-- Accumulator of the spread loop: the `new_fires` list, the reward change,
and how many draws of `self.np_random.random()` were consumed so far. -/
structure ScanState where
  new_fires : List (ℤ × ℤ)
  reward : ℝ
  used : ℕ

/-- One candidate-neighbour check of the spread loop: if the neighbour is in
bounds and a tree, draw a random number and compare it with the spread
probability; on success append the neighbour to `new_fires` and subtract the
spread penalty of 5. -/
noncomputable def ignite_check (s : EnvState) (u : ℕ → ℝ)
    (acc : ScanState) (fp q : ℤ × ℤ) : ScanState :=
  if inBounds s.grid_size q ∧ s.grid q.1 q.2 = 1 then
    let spread_prob := calculate_fire_spread_probability s fp q
    if u acc.used < spread_prob then
      ⟨acc.new_fires ++ [q], acc.reward - 5, acc.used + 1⟩
    else ⟨acc.new_fires, acc.reward, acc.used + 1⟩
  else acc

/-- The full spread scan over the snapshot `fire_positions` of the current
grid; the grid itself is left untouched during the scan. -/
noncomputable def fire_scan (s : EnvState) (u : ℕ → ℝ) : ScanState :=
  (fire_positions s.grid_size s.grid).foldl
    (fun acc fp => (neighbors4 fp).foldl (fun acc2 q => ignite_check s u acc2 fp q) acc)
    ⟨[], 0, 0⟩

/-- `for nf_r, nf_c in new_fires: self.grid[nf_r, nf_c] = 2`. -/
def apply_new_fires (g : Grid) (l : List (ℤ × ℤ)) : Grid :=
  l.foldl (fun g' p => updateCell g' p.1 p.2 2) g

/-! ### Agent action phase of `ForestFireEnv.step` (source part 1) -/

/-- The clamped movement target for actions 0–3; any other action id leaves
the position unchanged (there is no movement case for it). -/
def move_candidate (N : ℕ) (p : ℤ × ℤ) (a : ℤ) : ℤ × ℤ :=
  if a = 0 then (max 0 (p.1 - 1), p.2)
  else if a = 1 then (min ((N : ℤ) - 1) (p.1 + 1), p.2)
  else if a = 2 then (p.1, max 0 (p.2 - 1))
  else if a = 3 then (p.1, min ((N : ℤ) - 1) (p.2 + 1))
  else p

/-- The collision scan of the movement code: some agent with another index
currently sits on position `p` (note that the positions list may already hold
updated positions of lower-indexed agents). -/
def has_collision (agents : List (ℤ × ℤ)) (i : ℕ) (p : ℤ × ℤ) : Bool :=
  (List.range agents.length).any fun j =>
    decide (j ≠ i) && decide (agents.getD j (0, 0) = p)

/-- The 3×3 neighbourhood offsets scanned by actions 5 and 6, in source
order (`dr` outer, `dc` inner). -/
def neighborhood_offsets : List (ℤ × ℤ) :=
  [(-1, -1), (-1, 0), (-1, 1), (0, -1), (0, 0), (0, 1), (1, -1), (1, 0), (1, 1)]

/-- Accumulator of the agent action loop: the grid, the positions list and the
reward collected so far. -/
structure PhaseState where
  grid : Grid
  agent_positions : List (ℤ × ℤ)
  reward : ℝ

/-- Action 5: extinguish every fire cell in the 3×3 neighbourhood of the
agent's (new) position, +10 reward per extinguished cell. -/
def suppress_fires (N : ℕ) (st : PhaseState) (p : ℤ × ℤ) : PhaseState :=
  neighborhood_offsets.foldl
    (fun st2 d =>
      let q := (p.1 + d.1, p.2 + d.2)
      if inBounds N q ∧ st2.grid q.1 q.2 = 2 then
        ⟨updateCell st2.grid q.1 q.2 0, st2.agent_positions, st2.reward + 10⟩
      else st2) st

/-- Action 6: remove every healthy tree in the 3×3 neighbourhood of the
agent's (new) position, −1 reward per removed tree. -/
def cut_firebreak (N : ℕ) (st : PhaseState) (p : ℤ × ℤ) : PhaseState :=
  neighborhood_offsets.foldl
    (fun st2 d =>
      let q := (p.1 + d.1, p.2 + d.2)
      if inBounds N q ∧ st2.grid q.1 q.2 = 1 then
        ⟨updateCell st2.grid q.1 q.2 0, st2.agent_positions, st2.reward - 1⟩
      else st2) st

/-- The body of `for i, action in enumerate(actions[:self.num_agents])`:
propose a move, reject it on collision with the current positions list,
commit the position, then apply the suppress / firebreak effects. -/
def apply_agent_action (N : ℕ) (st : PhaseState) (i : ℕ) (a : ℤ) : PhaseState :=
  let old := st.agent_positions.getD i (0, 0)
  let cand := move_candidate N old a
  let newPos := if has_collision st.agent_positions i cand then old else cand
  let st1 : PhaseState := ⟨st.grid, st.agent_positions.set i newPos, st.reward⟩
  let st2 := if a = 5 then suppress_fires N st1 newPos else st1
  if a = 6 then cut_firebreak N st2 newPos else st2

/-- The whole agent phase: the loop runs over `actions[:num_agents]` and
mutates grid, positions and reward sequentially. -/
def agent_phase (s : EnvState) (actions : List ℤ) : PhaseState :=
  (List.range (min actions.length s.num_agents)).foldl
    (fun st i => apply_agent_action s.grid_size st i (actions.getD i 0))
    ⟨s.grid, s.agent_positions, 0⟩

/-! ### `ForestFireEnv.step` -/

/-- Environment state right after the agent phase of `step` (grid and agent
positions updated, step counter incremented). -/
noncomputable def post_agent_state (s : EnvState) (actions : List ℤ) : EnvState :=
  { s with grid := (agent_phase s actions).grid,
           agent_positions := (agent_phase s actions).agent_positions,
           steps_count := s.steps_count + 1 }

/-- The grid after both the agent phase and the fire spread phase. -/
noncomputable def post_fire_grid (s : EnvState) (actions : List ℤ) (u : ℕ → ℝ) : Grid :=
  apply_new_fires (post_agent_state s actions).grid
    (fire_scan (post_agent_state s actions) u).new_fires

/-- The scalar outputs of one `step` call (`reward, terminated, truncated`
plus the `info` counters), and the number of seeded-generator draws consumed. -/
structure StepOut where
  reward : ℝ
  terminated : Bool
  truncated : Bool
  active_fires : ℕ
  trees_remaining : ℕ
  used : ℕ

/-- `ForestFireEnv.step(actions)` in the default configuration: agent phase,
fire spread phase, then termination check (`active_fires == 0` gives
`terminated=True` and +100), tree bonus `0.1 * trees_remaining`, and
`truncated` is never set. -/
noncomputable def step (s : EnvState) (actions : List ℤ) (u : ℕ → ℝ) :
    EnvState × StepOut :=
  let s1 := post_agent_state s actions
  let scan := fire_scan s1 u
  let g2 := post_fire_grid s actions u
  let active_fires := countCells s.grid_size g2 2
  let trees := countCells s.grid_size g2 1
  let reward := (agent_phase s actions).reward + scan.reward
      + (if active_fires = 0 then (100 : ℝ) else 0) + (trees : ℝ) * 0.1
  ({ s1 with grid := g2 },
   ⟨reward, decide (active_fires = 0), false, active_fires, trees, scan.used⟩)

/-! ### C2: the fire update is two-phase -/

/-- Cells listed by `fire_positions` are fire cells of the scanned grid. -/
theorem mem_fire_positions {N : ℕ} {g : Grid} {p : ℤ × ℤ}
    (hp : p ∈ fire_positions N g) : g p.1 p.2 = 2 := by
  simp only [fire_positions, List.mem_flatMap, List.mem_filterMap,
    List.mem_range] at hp
  obtain ⟨r, _, c, _, hc⟩ := hp
  by_cases h : g (r : ℤ) (c : ℤ) = 2
  · rw [if_pos h] at hc
    cases hc
    exact h
  · rw [if_neg h] at hc
    cases hc

/-- Folding a scan function only adds `new_fires` entries that the step
function itself can add. -/
theorem foldl_new_fires_mem {α : Type} (f : ScanState → α → ScanState)
    (R : α → ℤ × ℤ → Prop)
    (hf : ∀ acc a q, q ∈ (f acc a).new_fires → q ∈ acc.new_fires ∨ R a q) :
    ∀ (l : List α) (acc : ScanState) (q : ℤ × ℤ),
      q ∈ (l.foldl f acc).new_fires → q ∈ acc.new_fires ∨ ∃ a ∈ l, R a q := by
  intro l
  induction l with
  | nil => intro acc q hq; exact Or.inl hq
  | cons a t ih =>
    intro acc q hq
    rcases ih (f acc a) q hq with h | ⟨b, hb, hR⟩
    · rcases hf acc a q h with h' | h'
      · exact Or.inl h'
      · exact Or.inr ⟨a, List.mem_cons_self a t, h'⟩
    · exact Or.inr ⟨b, List.mem_cons_of_mem a hb, hR⟩

/-- A single candidate check adds at most the probed neighbour to
`new_fires`. -/
theorem ignite_check_new_fires (s : EnvState) (u : ℕ → ℝ)
    (acc : ScanState) (fp q q' : ℤ × ℤ)
    (h : q' ∈ (ignite_check s u acc fp q).new_fires) :
    q' ∈ acc.new_fires ∨ q' = q := by
  unfold ignite_check at h
  split at h
  · dsimp only at h
    split at h
    · simp only [List.mem_append, List.mem_singleton] at h
      exact h
    · exact Or.inl h
  · exact Or.inl h

/-- Every cell recorded as newly ignited by the spread scan is a 4-neighbour
of some cell in the `fire_positions` snapshot. -/
theorem fire_scan_new_fires_mem (s : EnvState) (u : ℕ → ℝ) (q : ℤ × ℤ)
    (hq : q ∈ (fire_scan s u).new_fires) :
    ∃ fp ∈ fire_positions s.grid_size s.grid, q ∈ neighbors4 fp := by
  have h := foldl_new_fires_mem
    (fun acc fp => (neighbors4 fp).foldl (fun acc2 q => ignite_check s u acc2 fp q) acc)
    (fun fp q => q ∈ neighbors4 fp)
    (fun acc fp q hmem => by
      have h2 := foldl_new_fires_mem
        (fun acc2 n => ignite_check s u acc2 fp n)
        (fun n q' => q' = n)
        (fun acc2 n q' h' => ignite_check_new_fires s u acc2 fp n q' h')
        (neighbors4 fp) acc q hmem
      rcases h2 with h' | ⟨n, hn, rfl⟩
      · exact Or.inl h'
      · exact Or.inr hn)
    (fire_positions s.grid_size s.grid) ⟨[], 0, 0⟩ q hq
  rcases h with h | h
  · cases h
  · exact h

/-- A cell is fire after applying the recorded ignitions only when it was
fire before or was one of the recorded cells. -/
theorem apply_new_fires_eq_two (l : List (ℤ × ℤ)) :
    ∀ (g : Grid) (r c : ℤ), apply_new_fires g l r c = 2 →
      g r c = 2 ∨ (r, c) ∈ l := by
  induction l with
  | nil => intro g r c h; exact Or.inl h
  | cons p t ih =>
    intro g r c h
    rcases ih (updateCell g p.1 p.2 2) r c h with h' | h'
    · unfold updateCell at h'
      split at h'
      · rename_i hrc
        refine Or.inr ?_
        have : (r, c) = p := by
          cases p
          simp_all
        simp [this]
      · exact Or.inl h'
    · exact Or.inr (List.mem_cons_of_mem p h')

/-- The 4-neighbours of a cell are at Manhattan distance exactly 1 from it. -/
theorem neighbors4_manhattan {p q : ℤ × ℤ} (h : q ∈ neighbors4 p) :
    (q.1 - p.1).natAbs + (q.2 - p.2).natAbs = 1 := by
  simp only [neighbors4, List.mem_cons, List.not_mem_nil, or_false] at h
  rcases h with rfl | rfl | rfl | rfl <;> simp

/-- C2: within the fire-spread phase of `step`, propagation is two-phase
(snapshot then apply) — a cell that is on fire after the phase either was
already on fire when the phase started (i.e. right after the agent phase), or
is at Manhattan distance exactly 1 from a cell that was; in particular a cell
ignited during the tick never ignites a further neighbour in the same tick,
regardless of grid traversal order. -/
theorem C2_two_phase_fire_spread (s : EnvState) (actions : List ℤ) (u : ℕ → ℝ)
    (x : ℤ × ℤ) (hx : post_fire_grid s actions u x.1 x.2 = 2) :
    (post_agent_state s actions).grid x.1 x.2 = 2
    ∨ ∃ y : ℤ × ℤ, (post_agent_state s actions).grid y.1 y.2 = 2
        ∧ (x.1 - y.1).natAbs + (x.2 - y.2).natAbs = 1 := by
  have hx' : apply_new_fires (post_agent_state s actions).grid
      (fire_scan (post_agent_state s actions) u).new_fires x.1 x.2 = 2 := hx
  rcases apply_new_fires_eq_two _ _ _ _ hx' with h | h
  · exact Or.inl h
  · obtain ⟨fp, hfp, hnb⟩ := fire_scan_new_fires_mem (post_agent_state s actions) u (x.1, x.2) h
    refine Or.inr ⟨fp, mem_fire_positions hfp, ?_⟩
    exact neighbors4_manhattan hnb

/-- The all-zero draw stream (every `np_random.random()` call returns 0). -/
noncomputable def u0 : ℕ → ℝ := fun _ => 0

/-- Concrete 3×3 environment with a single fire at cell (1,1) and no trees. -/
noncomputable def envFire : EnvState :=
  ⟨3, 1, 0, 0, 0, fun _ _ => 0, fun _ _ => 0,
   fun r c => if r = 1 ∧ c = 1 then 2 else 0, [(0, 0)], 0⟩

/-- Witness for C2 at the concrete state `envFire` with an idle action. -/
theorem C2_two_phase_fire_spread_witness :
    post_fire_grid envFire [4] u0 1 1 = 2
    ∧ ((post_agent_state envFire [4]).grid 1 1 = 2
       ∨ ∃ y : ℤ × ℤ, (post_agent_state envFire [4]).grid y.1 y.2 = 2
           ∧ ((1 : ℤ) - y.1).natAbs + ((1 : ℤ) - y.2).natAbs = 1) :=
  ⟨rfl, C2_two_phase_fire_spread envFire [4] u0 (1, 1) rfl⟩

/-! ### C9: success termination -/

/-- C9: whenever the grid holds no fire cell after the agent phase and the
fire-spread phase, `step` returns `terminated=True` and the reward includes
the success bonus of +100 (on top of the action-phase reward, the spread
penalties and the `0.1 * trees_remaining` bonus). -/
theorem C9_success_termination (s : EnvState) (actions : List ℤ) (u : ℕ → ℝ)
    (h : countCells s.grid_size (post_fire_grid s actions u) 2 = 0) :
    (step s actions u).2.terminated = true
    ∧ (step s actions u).2.reward
        = (agent_phase s actions).reward
          + (fire_scan (post_agent_state s actions) u).reward + 100
          + (countCells s.grid_size (post_fire_grid s actions u) 1 : ℝ) * 0.1 := by
  unfold step
  refine ⟨by simp [h], by simp [h]⟩

/-- Concrete 2×2 environment with no fire anywhere (an episode started with
zero initial fires). -/
noncomputable def envNoFire : EnvState :=
  ⟨2, 1, 0, 0, 0, fun _ _ => 0, fun _ _ => 0, fun _ _ => 0, [(0, 0)], 0⟩

/-- Witness for C9: starting fire-free and acting `Idle`, the very first step
terminates successfully with the +100 bonus. -/
theorem C9_success_termination_witness :
    countCells envNoFire.grid_size (post_fire_grid envNoFire [4] u0) 2 = 0
    ∧ (step envNoFire [4] u0).2.terminated = true
    ∧ (step envNoFire [4] u0).2.reward
        = (agent_phase envNoFire [4]).reward
          + (fire_scan (post_agent_state envNoFire [4]) u0).reward + 100
          + (countCells envNoFire.grid_size (post_fire_grid envNoFire [4] u0) 1 : ℝ)
            * 0.1 :=
  ⟨rfl, C9_success_termination envNoFire [4] u0 rfl⟩

/-! ### C5: collision resolution is sequential, not atomic -/

/-- Folds whose step function never touches the positions list leave it
unchanged. -/
theorem foldl_preserves_positions (f : PhaseState → ℤ × ℤ → PhaseState)
    (hf : ∀ st d, (f st d).agent_positions = st.agent_positions) :
    ∀ (l : List (ℤ × ℤ)) (st : PhaseState),
      (l.foldl f st).agent_positions = st.agent_positions := by
  intro l
  induction l with
  | nil => intro st; rfl
  | cons d t ih => intro st; rw [List.foldl_cons, ih, hf]

/-- Suppressing fires does not move any agent. -/
theorem suppress_fires_positions (N : ℕ) (st : PhaseState) (p : ℤ × ℤ) :
    (suppress_fires N st p).agent_positions = st.agent_positions := by
  unfold suppress_fires
  apply foldl_preserves_positions
  intro st2 d
  dsimp only
  split <;> rfl

/-- Cutting a firebreak does not move any agent. -/
theorem cut_firebreak_positions (N : ℕ) (st : PhaseState) (p : ℤ × ℤ) :
    (cut_firebreak N st p).agent_positions = st.agent_positions := by
  unfold cut_firebreak
  apply foldl_preserves_positions
  intro st2 d
  dsimp only
  split <;> rfl

/-- The collision flag is set exactly when some agent with a different index
occupies the candidate cell in the current (partially updated) positions
list. -/
theorem has_collision_iff (agents : List (ℤ × ℤ)) (i : ℕ) (p : ℤ × ℤ) :
    has_collision agents i p = true
      ↔ ∃ j < agents.length, j ≠ i ∧ agents.getD j (0, 0) = p := by
  simp [has_collision, List.any_eq_true, List.mem_range]

/-- Concrete 4×4 environment with two agents at (0,1) and (0,0). -/
noncomputable def envTwoAgents : EnvState :=
  ⟨4, 2, 0, 0, 0, fun _ _ => 0, fun _ _ => 0, fun _ _ => 0, [(0, 1), (0, 0)], 0⟩

/-- Counterexample to C5 as stated: with both agents ordered `MoveRight`,
agent 1 ends the step at (0,1) — the cell agent 0 occupied at the start of
the step — instead of staying at its old position (0,0).  The collision rule
is evaluated against the partially updated positions list (agent 0 has
already moved to (0,2)), not against the pre-step snapshot, so the outcome
depends on the processing order. -/
theorem C5_counterexample :
    envTwoAgents.agent_positions.getD 0 (0, 0) = (0, 1)
    ∧ envTwoAgents.agent_positions.getD 1 (0, 0) = (0, 0)
    ∧ (step envTwoAgents [3, 3] u0).1.agent_positions = [(0, 2), (0, 1)] :=
  ⟨rfl, rfl, rfl⟩

/-- The positions list after one agent's action: index `i` is set to the
candidate when no collision is flagged, and kept otherwise; the suppress and
firebreak effects touch only the grid. -/
theorem apply_agent_action_positions (N : ℕ) (st : PhaseState) (i : ℕ) (a : ℤ) :
    (apply_agent_action N st i a).agent_positions
      = st.agent_positions.set i
          (if has_collision st.agent_positions i
              (move_candidate N (st.agent_positions.getD i (0, 0)) a)
           then st.agent_positions.getD i (0, 0)
           else move_candidate N (st.agent_positions.getD i (0, 0)) a) := by
  unfold apply_agent_action
  dsimp only
  split <;> split <;>
    simp [cut_firebreak_positions, suppress_fires_positions]

/-- C5 (amended): agent moves are resolved sequentially in index order; when
agent `i` is processed, its clamped candidate cell is checked against the
other agents' positions in the current list (lower indices already moved,
higher indices still at their pre-step positions); the move is rejected —
the agent keeps its position — exactly when some other agent currently
occupies the candidate cell.  Consequently a cell vacated earlier in the same
step by a lower-indexed agent can be entered, and the outcome depends on the
processing order rather than on the pre-step snapshot alone. -/
theorem C5_sequential_collision_resolution (N : ℕ) (st : PhaseState) (i : ℕ)
    (a : ℤ) (hi : i < st.agent_positions.length) :
    (apply_agent_action N st i a).agent_positions.getD i (0, 0)
      = (if has_collision st.agent_positions i
            (move_candidate N (st.agent_positions.getD i (0, 0)) a)
         then st.agent_positions.getD i (0, 0)
         else move_candidate N (st.agent_positions.getD i (0, 0)) a)
    ∧ (has_collision st.agent_positions i
          (move_candidate N (st.agent_positions.getD i (0, 0)) a) = true
        ↔ ∃ j < st.agent_positions.length, j ≠ i
            ∧ st.agent_positions.getD j (0, 0)
                = move_candidate N (st.agent_positions.getD i (0, 0)) a) := by
  constructor
  · rw [apply_agent_action_positions]
    rw [List.getD_eq_getElem?_getD, List.getElem?_set_self
      (by simpa using hi), Option.getD_some]
  · exact has_collision_iff st.agent_positions i
      (move_candidate N (st.agent_positions.getD i (0, 0)) a)

/-- Witness for the amended C5 at a concrete mid-step configuration. -/
theorem C5_sequential_collision_resolution_witness :
    (1 : ℕ) < ([((0 : ℤ), (1 : ℤ)), ((0 : ℤ), (0 : ℤ))] : List (ℤ × ℤ)).length
    ∧ ((apply_agent_action 4 ⟨fun _ _ => 0, [(0, 1), (0, 0)], 0⟩ 1 3).agent_positions.getD 1 (0, 0)
        = (if has_collision [(0, 1), (0, 0)] 1
              (move_candidate 4 (([((0 : ℤ), (1 : ℤ)), ((0 : ℤ), (0 : ℤ))] : List (ℤ × ℤ)).getD 1 (0, 0)) 3)
           then ([((0 : ℤ), (1 : ℤ)), ((0 : ℤ), (0 : ℤ))] : List (ℤ × ℤ)).getD 1 (0, 0)
           else move_candidate 4 (([((0 : ℤ), (1 : ℤ)), ((0 : ℤ), (0 : ℤ))] : List (ℤ × ℤ)).getD 1 (0, 0)) 3)
       ∧ (has_collision [(0, 1), (0, 0)] 1
            (move_candidate 4 (([((0 : ℤ), (1 : ℤ)), ((0 : ℤ), (0 : ℤ))] : List (ℤ × ℤ)).getD 1 (0, 0)) 3) = true
          ↔ ∃ j < ([((0 : ℤ), (1 : ℤ)), ((0 : ℤ), (0 : ℤ))] : List (ℤ × ℤ)).length, j ≠ 1
              ∧ ([((0 : ℤ), (1 : ℤ)), ((0 : ℤ), (0 : ℤ))] : List (ℤ × ℤ)).getD j (0, 0)
                  = move_candidate 4 (([((0 : ℤ), (1 : ℤ)), ((0 : ℤ), (0 : ℤ))] : List (ℤ × ℤ)).getD 1 (0, 0)) 3)) :=
  ⟨by decide,
   C5_sequential_collision_resolution 4 ⟨fun _ _ => 0, [(0, 1), (0, 0)], 0⟩ 1 3 (by decide)⟩

/-! ### C8: no validation of the actions argument -/

/-- Concrete 5×5 environment with three agents. -/
noncomputable def envThreeAgents : EnvState :=
  ⟨5, 3, 0, 0, 0, fun _ _ => 0, fun _ _ => 0, fun _ _ => 0,
   [(0, 0), (2, 2), (3, 3)], 0⟩

/-- Counterexample to C8 as stated: `step` never raises on a malformed
actions argument.  With 3 agents, a 5-action list produces exactly the result
of its first 3 actions (the rest are silently dropped by
`actions[:self.num_agents]`); a 1-action list is processed normally, leaving
agents 1 and 2 untouched; and the out-of-range action id 7 behaves exactly
like `Idle`. -/
theorem C8_counterexample :
    step envThreeAgents [1, 4, 4, 5, 5] u0 = step envThreeAgents [1, 4, 4] u0
    ∧ (step envThreeAgents [1] u0).1.agent_positions = [(1, 0), (2, 2), (3, 3)]
    ∧ (step envThreeAgents [7, 4, 4] u0).1.agent_positions
        = (step envThreeAgents [4, 4, 4] u0).1.agent_positions :=
  ⟨rfl, rfl, rfl⟩

/-- Folds over `List.range n` agree when their step functions agree below
`n`. -/
theorem foldl_range_congr {β : Type} (f g : β → ℕ → β) :
    ∀ (n : ℕ), (∀ b i, i < n → f b i = g b i) →
      ∀ b, (List.range n).foldl f b = (List.range n).foldl g b := by
  intro n
  induction n with
  | zero => intro _ b; rfl
  | succ m ih =>
    intro h b
    rw [List.range_succ, List.foldl_append, List.foldl_append,
      ih (fun b i hi => h b i (Nat.lt_succ_of_lt hi)) b]
    simp only [List.foldl_cons, List.foldl_nil]
    exact h _ m (Nat.lt_succ_self m)

/-- Entries of a truncated list agree with the original below the cut. -/
theorem getD_take (l : List ℤ) (n i : ℕ) (hi : i < n) :
    (l.take n).getD i 0 = l.getD i 0 := by
  rw [List.getD_eq_getElem?_getD, List.getD_eq_getElem?_getD,
    List.getElem?_take_of_lt hi]

/-- The agent phase only ever reads `actions[:num_agents]`. -/
theorem agent_phase_take (s : EnvState) (actions : List ℤ) :
    agent_phase s (actions.take s.num_agents) = agent_phase s actions := by
  unfold agent_phase
  have hlen : min (actions.take s.num_agents).length s.num_agents
      = min actions.length s.num_agents := by
    simp only [List.length_take]
    omega
  rw [hlen]
  exact foldl_range_congr _ _ _
    (fun st i hi => by
      rw [getD_take actions s.num_agents i (lt_of_lt_of_le hi (by omega))])
    _

/-- C8 (amended): `step` performs no validation of its actions argument —
actions beyond `num_agents` are silently dropped, agents beyond the length of
a too-short list are silently left unprocessed, and an action id outside the
0–6 enum range falls through every branch of the loop body, acting exactly
like `Idle`.  No error is raised at `step()` entry. -/
theorem C8_no_action_validation :
    (∀ (s : EnvState) (actions : List ℤ) (u : ℕ → ℝ),
        step s (actions.take s.num_agents) u = step s actions u)
    ∧ (∀ (N : ℕ) (st : PhaseState) (i : ℕ) (a : ℤ), a < 0 ∨ 6 < a →
        apply_agent_action N st i a = apply_agent_action N st i 4) := by
  constructor
  · intro s actions u
    unfold step post_fire_grid post_agent_state
    rw [agent_phase_take]
  · intro N st i a ha
    have h0 : ¬(a = 0) := by omega
    have h1 : ¬(a = 1) := by omega
    have h2 : ¬(a = 2) := by omega
    have h3 : ¬(a = 3) := by omega
    have h5 : ¬(a = 5) := by omega
    have h6 : ¬(a = 6) := by omega
    simp [apply_agent_action, move_candidate, h0, h1, h2, h3, h5, h6]

/-- Witness for the amended C8 at the out-of-range action id 7. -/
theorem C8_no_action_validation_witness :
    ((7 : ℤ) < 0 ∨ (6 : ℤ) < 7)
    ∧ apply_agent_action 5 ⟨fun _ _ => 0, [(0, 0)], 0⟩ 0 7
        = apply_agent_action 5 ⟨fun _ _ => 0, [(0, 0)], 0⟩ 0 4 :=
  ⟨Or.inr (by decide),
   C8_no_action_validation.2 5 ⟨fun _ _ => 0, [(0, 0)], 0⟩ 0 7 (Or.inr (by decide))⟩

/-! ### Embedding of `src/numba_env.py` (`physics_step`, `ForestGuardianEnv`) -/

/-- A float channel of the numba state grid. -/
abbrev RGrid := ℤ → ℤ → ℝ

/-- Pointwise update of a float channel. -/
def updateRCell (g : RGrid) (r c : ℤ) (v : ℝ) : RGrid :=
  fun r' c' => if r' = r ∧ c' = c then v else g r' c'

/-- The process-global `np.random` generator, modelled as streams of the
values its successive `rand`/`random` and `randint` calls return
(`randint(0, n)` draws are taken modulo `n`). -/
structure GlobalRng where
  floats : ℕ → ℝ
  ints : ℕ → ℕ

/-- State of a `ForestGuardianEnv` instance: the four channels of
`self.np_state`, the `agent_positions` array and the step counter. -/
structure NumbaState where
  grid_size : ℕ
  terrain : RGrid
  humidity : RGrid
  fire : RGrid
  agents_channel : RGrid
  agent_positions : List (ℤ × ℤ)
  steps : ℕ

/-- Body of the agent loop of `physics_step` for index `i`: direction from
the action id, boundary check, unconditional move (no collision check), and
3×3 fire suppression for action 5 around the new position. -/
noncomputable def numba_agent_action (H : ℕ) (acc : List (ℤ × ℤ) × RGrid)
    (i : ℕ) (a : ℤ) : List (ℤ × ℤ) × RGrid :=
  let rc := acc.1.getD i (0, 0)
  let dr : ℤ := if a = 0 then -1 else if a = 1 then 1 else 0
  let dc : ℤ := if a = 2 then -1 else if a = 3 then 1 else 0
  let q := (rc.1 + dr, rc.2 + dc)
  if inBounds H q then
    let positions := acc.1.set i q
    if a = 5 then
      (positions,
       neighborhood_offsets.foldl (fun f d =>
         let t := (q.1 + d.1, q.2 + d.2)
         if inBounds H t then updateRCell f t.1 t.2 0 else f) acc.2)
    else (positions, acc.2)
  else acc

/-- The 8-neighbourhood offsets of the numba fire loop, in source order
(`dr` outer, `dc` inner, skipping (0,0)). -/
def offsets8 : List (ℤ × ℤ) :=
  [(-1, -1), (-1, 0), (-1, 1), (0, -1), (0, 1), (1, -1), (1, 0), (1, 1)]

/-- `physics_step(state_grid, actions, agent_positions, fire_spread_prob,
wind_dir)`: clean agent markers, move agents (and suppress for action 5),
rewrite markers, then run the synchronous fire cellular automaton on a copy
of the fire channel, drawing from the process-global generator; returns the
new state and `trees_burned = np.sum(fire_grid)`. -/
noncomputable def numba_physics (g : GlobalRng) (s4 : NumbaState)
    (actions : List ℤ) (fire_spread_prob : ℝ) (wind : ℝ × ℝ) :
    NumbaState × ℝ :=
  let H := s4.grid_size
  let ach0 := s4.agent_positions.foldl
    (fun ch p => updateRCell ch p.1 p.2 0) s4.agents_channel
  let mv := (List.range actions.length).foldl
    (fun acc i => numba_agent_action H acc i (actions.getD i 0))
    (s4.agent_positions, s4.fire)
  let positions := mv.1
  let fireCh := mv.2
  let ach1 := positions.foldl (fun ch p => updateRCell ch p.1 p.2 1) ach0
  let scan := (cellsList H).foldl
    (fun (acc : RGrid × ℕ) rc =>
      if fireCh rc.1 rc.2 > 0.1 then
        offsets8.foldl (fun acc2 d =>
          let q := (rc.1 + d.1, rc.2 + d.2)
          if inBounds H q ∧ fireCh q.1 q.2 < 0.1 then
            let slope := s4.terrain q.1 q.2 - s4.terrain rc.1 rc.2
            let v_norm := Real.sqrt (((d.1 * d.1 + d.2 * d.2 : ℤ) : ℝ))
            let wf := (d.1 : ℝ) / v_norm * wind.1 + (d.2 : ℝ) / v_norm * wind.2
            let prob := fire_spread_prob * (1 - s4.humidity q.1 q.2)
              * (if slope > 0 then 1 + slope * 2 else 1) * (1 + wf)
            if g.floats acc2.2 < prob then
              (updateRCell acc2.1 q.1 q.2 1, acc2.2 + 1)
            else (acc2.1, acc2.2 + 1)
          else acc2) acc
      else acc) (fireCh, 0)
  let newFire := scan.1
  let trees_burned := (cellsList H).foldl (fun a p => a + newFire p.1 p.2) 0
  (⟨H, s4.terrain, s4.humidity, newFire, ach1, positions, s4.steps⟩, trees_burned)

/-- The scalar outputs of one `ForestGuardianEnv.step` call. -/
structure NumbaOut where
  reward : ℝ
  terminated : Bool
  truncated : Bool
  fire_sum : ℝ

/-- `ForestGuardianEnv.step(actions)`: the numba kernel with the hard-coded
`spread_prob=0.05` and `wind=[0.2, 0.5]`, fire penalty `-0.1 * fire_sum`,
truncation at `MAX_STEPS = 500`, success at `fire_sum == 0` (+1000) and
failure at `fire_sum > grid_size**2 * 0.8` (−1000). -/
noncomputable def numba_step (g : GlobalRng) (s4 : NumbaState)
    (actions : List ℤ) : NumbaState × NumbaOut :=
  let spread_prob : ℝ := 0.05
  let wind : ℝ × ℝ := (0.2, 0.5)
  let res := numba_physics g s4 actions spread_prob wind
  let st := { res.1 with steps := s4.steps + 1 }
  let current_fire_sum := res.2
  let fire_penalty := -current_fire_sum * 0.1
  let trunc := decide (s4.steps + 1 ≥ 500)
  if current_fire_sum = 0 then
    (st, ⟨fire_penalty + 1000, true, trunc, current_fire_sum⟩)
  else if current_fire_sum > ((s4.grid_size : ℝ)) ^ 2 * 0.8 then
    (st, ⟨fire_penalty - 1000, true, trunc, current_fire_sum⟩)
  else
    (st, ⟨fire_penalty, false, trunc, current_fire_sum⟩)

/-- `ForestGuardianEnv.reset(seed)`: Gaussian-hill terrain, humidity and the
three initial fires drawn from the process-global `np.random` generator,
agents at the top-left corner.  The `seed` argument only seeds the unused
`self.np_random` of the gym superclass, so it influences nothing. -/
noncomputable def numba_reset (seed : ℕ) (g : GlobalRng) (N num_agents : ℕ) :
    NumbaState :=
  let lin : ℤ → ℝ := fun k => -1 + 2 * (k : ℝ) / ((N : ℝ) - 1)
  let terrain : RGrid := fun r c => Real.exp (-((lin c) ^ 2 + (lin r) ^ 2) / 0.5)
  let humidity : RGrid := fun r c => g.floats (r.toNat * N + c.toNat) * 0.5 + 0.2
  let fire := (List.range 3).foldl
    (fun f k => updateRCell f ((g.ints (2 * k) % N : ℕ) : ℤ)
      ((g.ints (2 * k + 1) % N : ℕ) : ℤ) 1) (fun _ _ => 0)
  let positions := (List.range num_agents).map fun i => ((0 : ℤ), (i : ℤ))
  let agents := positions.foldl
    (fun ch p => updateRCell ch p.1 p.2 1) (fun _ _ => 0)
  ⟨N, terrain, humidity, fire, agents, positions, 0⟩

/-! ### C3: truncation at the step limit -/

/-- C3: `ForestGuardianEnv.step` returns `truncated=True` exactly when the
incremented step counter has reached the configured maximum `MAX_STEPS = 500`,
and `truncated=False` before that; `ForestFireEnv` configures no step limit
and always returns `truncated=False`. -/
theorem C3_truncation_at_step_limit :
    (∀ (g : GlobalRng) (s4 : NumbaState) (actions : List ℤ),
        (numba_step g s4 actions).2.truncated = decide (s4.steps + 1 ≥ 500))
    ∧ (∀ (s : EnvState) (actions : List ℤ) (u : ℕ → ℝ),
        (step s actions u).2.truncated = false) := by
  constructor
  · intro g s4 actions
    unfold numba_step
    dsimp only
    split_ifs <;> rfl
  · intro s actions u; rfl

/-! ### C4: no trees-destroyed termination threshold -/

/-- Counterexample to C4 as stated: in `envFire` all trees of the episode are
already destroyed (0 trees remain, so against any positive initial tree count
such as 5 the destroyed fraction is 1 ≥ 0.8), one fire is still burning, yet
`step` returns `terminated=False` (and hence no −100 penalty): `ForestFireEnv`
tracks no initial tree count and has no destruction threshold at all. -/
theorem C4_counterexample :
    (0 : ℕ) < 5
    ∧ (0.8 : ℝ) ≤ 1 - ((step envFire [4] u0).2.trees_remaining : ℝ) / 5
    ∧ (step envFire [4] u0).2.terminated = false := by
  refine ⟨by decide, ?_, rfl⟩
  have h : (step envFire [4] u0).2.trees_remaining = 0 := rfl
  rw [h]
  norm_num

/-- C4 (amended): `ForestFireEnv.step` has no failure termination — it
terminates exactly when no fire cell remains after the two phases; the only
destruction-based termination in the repository is `ForestGuardianEnv.step`,
which terminates when the post-step fire sum is 0 or strictly exceeds
`0.8 * grid_size**2` (a fraction of all grid cells, not of the initial
trees), the latter with a −1000 reward penalty rather than −100. -/
theorem C4_destruction_termination_amended :
    (∀ (s : EnvState) (actions : List ℤ) (u : ℕ → ℝ),
        (step s actions u).2.terminated
          = decide (countCells s.grid_size (post_fire_grid s actions u) 2 = 0))
    ∧ (∀ (g : GlobalRng) (s4 : NumbaState) (actions : List ℤ),
        ((numba_step g s4 actions).2.terminated = true
          ↔ (numba_step g s4 actions).2.fire_sum = 0
            ∨ (numba_step g s4 actions).2.fire_sum > ((s4.grid_size : ℝ)) ^ 2 * 0.8)
        ∧ (numba_step g s4 actions).2.reward
            = -(numba_step g s4 actions).2.fire_sum * 0.1
              + (if (numba_step g s4 actions).2.fire_sum = 0 then (1000 : ℝ)
                 else if (numba_step g s4 actions).2.fire_sum
                     > ((s4.grid_size : ℝ)) ^ 2 * 0.8 then -1000
                 else 0)) := by
  constructor
  · intro s actions u; rfl
  · intro g s4 actions
    unfold numba_step
    dsimp only
    split_ifs with hf hb
    · exact ⟨by simp [hf], by simp [hf]⟩
    · exact ⟨by simp [hf, hb], by simp [hf, hb]; ring⟩
    · exact ⟨by simp [hf, hb], by simp [hf, hb]⟩

/-! ### C6: determinism under a fixed seed -/

/-- A whole episode of `ForestFireEnv` after `reset`: apply the action lists
in order, threading the seeded draw stream (each step consumes as many draws
as it performs spread checks), and collect the step outputs. -/
noncomputable def run_forest (s : EnvState) (u : ℕ → ℝ) :
    List (List ℤ) → List StepOut
  | [] => []
  | a :: rest =>
      (step s a u).2 ::
        run_forest (step s a u).1 (fun n => u (n + (step s a u).2.used)) rest

/-- The same episode placed in a world that also carries the process-global
generator: the source of `ForestFireEnv` contains no `np.random` module-level
call (all its draws go through the episode's seeded `self.np_random`), so the
global generator is threaded but never consulted. -/
noncomputable def run_forest_world (s : EnvState) (u : ℕ → ℝ) (g : GlobalRng)
    (acts : List (List ℤ)) : List StepOut :=
  run_forest s u acts

/-- Counterexample to C6 as stated: `ForestGuardianEnv.reset(seed)` draws its
initial fires from the process-global generator, which the seed does not
control — two runs with the identical seed 7 but different global generator
states already return different initial observations (the fire channel
differs at cell (0,0)). -/
theorem C6_counterexample :
    (numba_reset 7 ⟨fun _ => 0, fun _ => 0⟩ 4 2).fire 0 0
      ≠ (numba_reset 7 ⟨fun _ => 0, fun _ => 1⟩ 4 2).fire 0 0 := by
  intro h
  have h1 : (numba_reset 7 ⟨fun _ => 0, fun _ => 0⟩ 4 2).fire 0 0 = 1 := rfl
  have h2 : (numba_reset 7 ⟨fun _ => 0, fun _ => 1⟩ 4 2).fire 0 0 = 0 := rfl
  rw [h1, h2] at h
  exact one_ne_zero h

/-- C6 (amended): for `ForestFireEnv` (default configuration) the claim
holds — an episode's outputs are a function of the seeded stream and the
action sequence alone, independent of the state of the process-global
generator, so two runs from `reset(seed=s)` with the same actions coincide;
`ForestGuardianEnv` violates the claim (see the counterexample). -/
theorem C6_forest_determinism :
    ∀ (s : EnvState) (u : ℕ → ℝ) (g₁ g₂ : GlobalRng) (acts : List (List ℤ)),
      run_forest_world s u g₁ acts = run_forest_world s u g₂ acts :=
  fun _ _ _ _ _ => rfl

/-! ### C7: monotonicity of the spread model -/

/-- `np.clip` is monotone in its argument. -/
theorem clip_mono {x y lo hi : ℝ} (h : x ≤ y) : clip x lo hi ≤ clip y lo hi :=
  min_le_min (max_le_max h le_rfl) le_rfl

/-- `np.clip` never goes below its lower bound (when the bounds are ordered). -/
theorem clip_lower {x lo hi : ℝ} (h : lo ≤ hi) : lo ≤ clip x lo hi :=
  le_min (le_max_right x lo) h

/-- The wind factor is clipped to at least 0.15, hence nonnegative. -/
theorem wind_factor_nonneg (s : EnvState) (dr dc : ℤ) :
    0 ≤ wind_factor s dr dc :=
  le_trans (by norm_num) (clip_lower (by norm_num))

/-- The slope factor is clipped to at least 0.1, hence nonnegative. -/
theorem elevation_factor_nonneg (s : EnvState) (from_pos to_pos : ℤ × ℤ) :
    0 ≤ elevation_factor s from_pos to_pos :=
  le_trans (by norm_num) (clip_lower (by norm_num))

/-- The moisture factor is clipped to at least 0.1, hence nonnegative. -/
theorem moisture_factor_nonneg (s : EnvState) (to_pos : ℤ × ℤ) :
    0 ≤ moisture_factor s to_pos :=
  le_trans (by norm_num) (clip_lower (by norm_num))

/-- C7: with a nonnegative base probability and wind speed, moving the wind
direction so that the folded angular difference to the spread direction
shrinks (better alignment) never decreases the spread probability; and with
everything else fixed, raising the target cell's fuel moisture never
increases it. -/
theorem C7_spread_probability_monotonicity :
    (∀ (s : EnvState) (from_pos to_pos : ℤ × ℤ) (w₁ w₂ : ℝ),
        0 ≤ s.base_fire_spread_prob → 0 ≤ s.wind_speed →
        angle_diff (fire_direction (to_pos.1 - from_pos.1) (to_pos.2 - from_pos.2)) w₁
          ≤ angle_diff (fire_direction (to_pos.1 - from_pos.1) (to_pos.2 - from_pos.2)) w₂ →
        calculate_fire_spread_probability { s with wind_direction := w₂ } from_pos to_pos
          ≤ calculate_fire_spread_probability { s with wind_direction := w₁ } from_pos to_pos)
    ∧ (∀ (s : EnvState) (from_pos to_pos : ℤ × ℤ) (m₁ m₂ : ℤ → ℤ → ℝ),
        0 ≤ s.base_fire_spread_prob →
        m₁ to_pos.1 to_pos.2 ≤ m₂ to_pos.1 to_pos.2 →
        calculate_fire_spread_probability { s with fuel_moisture := m₂ } from_pos to_pos
          ≤ calculate_fire_spread_probability { s with fuel_moisture := m₁ } from_pos to_pos) := by
  constructor
  · intro s from_pos to_pos w₁ w₂ hb hw hangle
    show clip (s.base_fire_spread_prob
        * wind_factor { s with wind_direction := w₂ }
            (to_pos.1 - from_pos.1) (to_pos.2 - from_pos.2)
        * elevation_factor s from_pos to_pos * moisture_factor s to_pos) 0 1
      ≤ clip (s.base_fire_spread_prob
        * wind_factor { s with wind_direction := w₁ }
            (to_pos.1 - from_pos.1) (to_pos.2 - from_pos.2)
        * elevation_factor s from_pos to_pos * moisture_factor s to_pos) 0 1
    apply clip_mono
    have hwf : wind_factor { s with wind_direction := w₂ }
          (to_pos.1 - from_pos.1) (to_pos.2 - from_pos.2)
        ≤ wind_factor { s with wind_direction := w₁ }
          (to_pos.1 - from_pos.1) (to_pos.2 - from_pos.2) := by
      unfold wind_factor
      dsimp only
      apply clip_mono
      have hmult : (0 : ℝ) ≤ (s.wind_speed / 10) ^ (1.5 : ℝ) :=
        Real.rpow_nonneg (div_nonneg hw (by norm_num)) _
      have hdiv : angle_diff (fire_direction (to_pos.1 - from_pos.1)
            (to_pos.2 - from_pos.2)) w₁ / 180
          ≤ angle_diff (fire_direction (to_pos.1 - from_pos.1)
            (to_pos.2 - from_pos.2)) w₂ / 180 :=
        (div_le_div_iff_of_pos_right (by norm_num)).mpr hangle
      have := mul_le_mul_of_nonneg_left (a := (s.wind_speed / 10) ^ (1.5 : ℝ))
        (by linarith :
          1 - angle_diff (fire_direction (to_pos.1 - from_pos.1)
              (to_pos.2 - from_pos.2)) w₂ / 180
            ≤ 1 - angle_diff (fire_direction (to_pos.1 - from_pos.1)
              (to_pos.2 - from_pos.2)) w₁ / 180) hmult
      linarith
    have hef : 0 ≤ elevation_factor s from_pos to_pos :=
      elevation_factor_nonneg s from_pos to_pos
    have hmf : 0 ≤ moisture_factor s to_pos := moisture_factor_nonneg s to_pos
    exact mul_le_mul_of_nonneg_right
      (mul_le_mul_of_nonneg_right (mul_le_mul_of_nonneg_left hwf hb) hef) hmf
  · intro s from_pos to_pos m₁ m₂ hb hm
    show clip (s.base_fire_spread_prob
        * wind_factor s (to_pos.1 - from_pos.1) (to_pos.2 - from_pos.2)
        * elevation_factor s from_pos to_pos
        * moisture_factor { s with fuel_moisture := m₂ } to_pos) 0 1
      ≤ clip (s.base_fire_spread_prob
        * wind_factor s (to_pos.1 - from_pos.1) (to_pos.2 - from_pos.2)
        * elevation_factor s from_pos to_pos
        * moisture_factor { s with fuel_moisture := m₁ } to_pos) 0 1
    apply clip_mono
    have hmf : moisture_factor { s with fuel_moisture := m₂ } to_pos
        ≤ moisture_factor { s with fuel_moisture := m₁ } to_pos := by
      unfold moisture_factor
      dsimp only
      apply clip_mono
      apply Real.exp_le_exp.mpr
      linarith
    exact mul_le_mul_of_nonneg_left hmf
      (mul_nonneg
        (mul_nonneg hb
          (wind_factor_nonneg s (to_pos.1 - from_pos.1) (to_pos.2 - from_pos.2)))
        (elevation_factor_nonneg s from_pos to_pos))

/-- Witness for C7 at concrete inputs (equal angles and equal moistures make
the hypotheses reflexive). -/
theorem C7_spread_probability_monotonicity_witness :
    ((0 : ℝ) ≤ envAllTrees.base_fire_spread_prob
      ∧ (0 : ℝ) ≤ envAllTrees.wind_speed
      ∧ calculate_fire_spread_probability
          { envAllTrees with wind_direction := (0 : ℝ) } (0, 0) (0, 1)
        ≤ calculate_fire_spread_probability
          { envAllTrees with wind_direction := (0 : ℝ) } (0, 0) (0, 1))
    ∧ calculate_fire_spread_probability
        { envAllTrees with fuel_moisture := fun _ _ => 0 } (0, 0) (0, 1)
      ≤ calculate_fire_spread_probability
        { envAllTrees with fuel_moisture := fun _ _ => 0 } (0, 0) (0, 1) :=
  ⟨⟨le_refl 0, le_refl 0,
    C7_spread_probability_monotonicity.1 envAllTrees (0, 0) (0, 1) 0 0
      (le_refl 0) (le_refl 0) (le_refl _)⟩,
   C7_spread_probability_monotonicity.2 envAllTrees (0, 0) (0, 1)
     (fun _ _ => 0) (fun _ _ => 0) (le_refl 0) (le_refl 0)⟩

/-! ### Embedding of `ForestFireEnv.reset` and C10 -/

/-- The values drawn from the episode's seeded `self.np_random` generator
during one `reset` call, one stream per call site (`integers(0, grid_size)`
draws are taken modulo `grid_size`, `integers(1, grid_size-1)` draws as
`1 + value % (grid_size-2)`; `wind_speed`/`wind_direction` hold the values of
the two `uniform` draws, `tree_u` the per-cell `random((N, N))` values and
`moisture_noise` the per-cell `uniform(-5, 5)` values). -/
structure ResetDraws where
  control_x : ℕ → ℕ
  control_y : ℕ → ℕ
  control_h : ℕ → ℝ
  wind_speed : ℝ
  wind_direction : ℝ
  tree_u : ℤ → ℤ → ℝ
  moisture_noise : ℤ → ℤ → ℝ
  agent_r : ℕ → ℕ
  agent_c : ℕ → ℕ
  fire_r : ℕ → ℕ
  fire_c : ℕ → ℕ

/-- Inverse-distance-weighted interpolation of `_generate_elevation_map`
before normalization: 5 random control points, weight `1 / (sqrt(dist²) +
0.1)²`, value `weighted_sum / total_weight`. -/
noncomputable def idw_raw (N : ℕ) (d : ResetDraws) (i j : ℤ) : ℝ :=
  let acc := (List.range 5).foldl
    (fun (a : ℝ × ℝ) k =>
      let px := ((d.control_x k % N : ℕ) : ℤ)
      let py := ((d.control_y k % N : ℕ) : ℤ)
      let dist := Real.sqrt ((((i - px) * (i - px) + (j - py) * (j - py) : ℤ) : ℝ)) + 0.1
      let w := 1 / dist ^ 2
      (a.1 + w * d.control_h k, a.2 + w))
    (0, 0)
  acc.1 / acc.2

/-- Minimum of a float field over the board (`array.min()`). -/
noncomputable def grid_min_val (N : ℕ) (f : ℤ → ℤ → ℝ) : ℝ :=
  (cellsList N).foldl (fun a p => min a (f p.1 p.2)) (f 0 0)

/-- Maximum of a float field over the board (`array.max()`). -/
noncomputable def grid_max_val (N : ℕ) (f : ℤ → ℤ → ℝ) : ℝ :=
  (cellsList N).foldl (fun a p => max a (f p.1 p.2)) (f 0 0)

/-- `_generate_elevation_map`: IDW interpolation followed by min-max
normalization `(e - e.min()) / (e.max() - e.min() + 1e-6)`. -/
noncomputable def generate_elevation_map (N : ℕ) (d : ResetDraws) : ℤ → ℤ → ℝ :=
  fun i j => (idw_raw N d i j - grid_min_val N (idw_raw N d))
    / (grid_max_val N (idw_raw N d) - grid_min_val N (idw_raw N d) + 1e-6)

/-- `_generate_fuel_moisture_map`: base 15% plus 15 times elevation plus
uniform noise, clipped to `[5, 35]`. -/
noncomputable def generate_fuel_moisture_map (N : ℕ) (d : ResetDraws)
    (elev : ℤ → ℤ → ℝ) : ℤ → ℤ → ℝ :=
  fun r c => clip (15 + elev r c * 15 + d.moisture_noise r c) 5 35

/-- Tree placement of `reset`: `tree_mask = random((N,N)) < initial_trees`,
then `tree_mask[elevation > 0.8] = False`, then `grid[tree_mask] = 1`. -/
noncomputable def initial_tree_grid (N : ℕ) (initial_trees : ℝ)
    (d : ResetDraws) (elev : ℤ → ℤ → ℝ) : Grid :=
  fun r c => if d.tree_u r c < initial_trees ∧ ¬ elev r c > 0.8 then 1 else 0

/-- Agent placement of `reset`: up to 100 attempts of drawing a cell and
appending it when not already taken, then default positions `(0, len)` until
`num_agents` positions exist. -/
def place_agents (N num_agents : ℕ) (d : ResetDraws) : List (ℤ × ℤ) :=
  let placed := (List.range 100).foldl
    (fun (ps : List (ℤ × ℤ)) k =>
      if ps.length < num_agents then
        let p := (((d.agent_r k % N : ℕ) : ℤ), ((d.agent_c k % N : ℕ) : ℤ))
        if p ∈ ps then ps else ps ++ [p]
      else ps) []
  placed ++ (List.range (num_agents - placed.length)).map
    (fun k => ((0 : ℤ), ((placed.length + k : ℕ) : ℤ)))

/-- One attempt of the fire placement loop of `reset`: if fires are still
missing, draw an interior cell; when it holds a tree and no agent, ignite it. -/
noncomputable def place_fire_attempt (N initial_fires : ℕ)
    (agents : List (ℤ × ℤ)) (d : ResetDraws) (st : Grid × ℕ) (k : ℕ) :
    Grid × ℕ :=
  if st.2 < initial_fires then
    let p := (((1 + d.fire_r k % (N - 2) : ℕ) : ℤ), ((1 + d.fire_c k % (N - 2) : ℕ) : ℤ))
    if st.1 p.1 p.2 = 1 ∧ p ∉ agents then (updateCell st.1 p.1 p.2 2, st.2 + 1)
    else st
  else st

/-- Fire placement of `reset`: up to 200 attempts. -/
noncomputable def place_fires (N initial_fires : ℕ) (g : Grid)
    (agents : List (ℤ × ℤ)) (d : ResetDraws) : Grid :=
  ((List.range 200).foldl (place_fire_attempt N initial_fires agents d) (g, 0)).1

/-- `ForestFireEnv.reset` in the default configuration (`use_real_weather =
False`, so wind is drawn from the seeded generator): elevation and moisture
maps, random wind, tree placement avoiding high elevation, agent placement,
fire placement on tree cells. -/
noncomputable def reset (grid_size num_agents initial_fires : ℕ)
    (initial_trees base_prob : ℝ) (d : ResetDraws) : EnvState :=
  let elev := generate_elevation_map grid_size d
  let moist := generate_fuel_moisture_map grid_size d elev
  let g1 := initial_tree_grid grid_size initial_trees d elev
  let agents := place_agents grid_size num_agents d
  let g2 := place_fires grid_size initial_fires g1 agents d
  ⟨grid_size, num_agents, base_prob, d.wind_speed, d.wind_direction,
   elev, moist, g2, agents, 0⟩

/-- The fire placement loop never creates a tree: a cell that is not a tree
stays not-a-tree through any number of attempts. -/
theorem place_fires_preserves_not_tree (N initial_fires : ℕ)
    (agents : List (ℤ × ℤ)) (d : ResetDraws) (r c : ℤ) :
    ∀ (ks : List ℕ) (st : Grid × ℕ), st.1 r c ≠ 1 →
      ((ks.foldl (place_fire_attempt N initial_fires agents d) st).1) r c ≠ 1 := by
  intro ks
  induction ks with
  | nil => intro st h; exact h
  | cons k t ih =>
    intro st h
    refine ih _ ?_
    unfold place_fire_attempt
    split
    · dsimp only
      split
      · unfold updateCell
        dsimp only
        split
        · exact (by omega : (2 : ℕ) ≠ 1)
        · exact h
      · exact h
    · exact h

/-- C10: immediately after `reset()`, a cell whose elevation exceeds 0.8
never holds a tree — the tree mask is cleared on high-elevation cells before
the grid is written, and the subsequent fire placement can only turn tree
cells into fire cells, never create trees.  Stated for an arbitrary elevation
field (first part) and for the elevation map `reset` itself generates
(second part, `(reset ...).grid` and `(reset ...).elevation`). -/
theorem C10_no_trees_on_high_elevation :
    (∀ (N initial_fires : ℕ) (initial_trees : ℝ) (d : ResetDraws)
        (elev : ℤ → ℤ → ℝ) (agents : List (ℤ × ℤ)) (r c : ℤ),
        elev r c > 0.8 →
        place_fires N initial_fires (initial_tree_grid N initial_trees d elev)
          agents d r c ≠ 1)
    ∧ (∀ (grid_size num_agents initial_fires : ℕ) (initial_trees base_prob : ℝ)
        (d : ResetDraws) (r c : ℤ),
        (reset grid_size num_agents initial_fires initial_trees base_prob d).elevation r c > 0.8 →
        (reset grid_size num_agents initial_fires initial_trees base_prob d).grid r c ≠ 1) := by
  have key : ∀ (N initial_fires : ℕ) (initial_trees : ℝ) (d : ResetDraws)
      (elev : ℤ → ℤ → ℝ) (agents : List (ℤ × ℤ)) (r c : ℤ),
      elev r c > 0.8 →
      place_fires N initial_fires (initial_tree_grid N initial_trees d elev)
        agents d r c ≠ 1 := by
    intro N initial_fires initial_trees d elev agents r c h
    unfold place_fires
    apply place_fires_preserves_not_tree
    unfold initial_tree_grid
    dsimp only
    rw [if_neg]
    · omega
    · intro hcon
      exact hcon.2 h
  exact ⟨key, fun grid_size num_agents initial_fires initial_trees base_prob d r c h =>
    key grid_size initial_fires initial_trees d
      (generate_elevation_map grid_size d)
      (place_agents grid_size num_agents d) r c h⟩

/-- A concrete draw record with all streams constant. -/
noncomputable def drawsZero : ResetDraws :=
  ⟨fun _ => 0, fun _ => 0, fun _ => 0, 0, 0, fun _ _ => 0, fun _ _ => 0,
   fun _ => 0, fun _ => 0, fun _ => 0, fun _ => 0⟩

/-- Witness for C10 with the constantly-1 elevation field. -/
theorem C10_no_trees_on_high_elevation_witness :
    ((1 : ℝ) > 0.8)
    ∧ place_fires 3 3 (initial_tree_grid 3 (0.6 : ℝ) drawsZero (fun _ _ => 1))
        [] drawsZero 0 0 ≠ 1 :=
  ⟨by norm_num,
   C10_no_trees_on_high_elevation.1 3 3 (0.6 : ℝ) drawsZero (fun _ _ => 1)
     [] 0 0 (by norm_num)⟩

end ForestGuardianRL
